import Mathlib

/-!
# now-storage-go: upload, deployment and readiness polling

A shallow embedding of `client.go`, `utils.go`, `requests.go` and `responses.go`.
The network, the readers handed in by the caller and the scheduler are the
environment: each HTTP exchange is an explicit argument, a reader is the bytes it
has not delivered yet, and the order in which goroutines deliver their results
is an explicit list.
-/

namespace Storage

/-! ## Data model (`responses.go`, `requests.go`, `client.go`) -/

/-- Warning and missing entries of a deployment error (`DeployError`). -/
structure DeployError where
  Message : String
  deriving DecidableEq, Repr

/-- Structured error object of a create-deployment response (`DeployErrors`). -/
structure DeployErrors where
  Message : String
  Warnings : List DeployError
  Missing : List DeployError
  deriving DecidableEq, Repr

/-- Error values of the package: the six `errors.New` variables of `client.go`,
the two error types of `responses.go`, `fmt.Errorf` values, and the errors that
come from outside the package (readers, `net/http`, `encoding/json`). -/
inductive Err where
  | CouldNotGetDeploymentError
  | CouldNotUploadError
  | DeploymentReadyStateError
  | DeploymentUrlMismatchError
  | NoDeploymentUrlError
  | NotAuthroizedError
  | UploadError (Code : String)
  | DeployErrors (e : Storage.DeployErrors)
  | Errorf (msg : String)
  | Read (msg : String)
  | NewRequest (msg : String)
  | Transport (msg : String)
  | Json (msg : String)
  deriving DecidableEq, Repr

/-- The `Error()` text of an error value. -/
def Err.Error : Err → String
  | .CouldNotGetDeploymentError => "Could not get deployment."
  | .CouldNotUploadError => "One or more files failed to upload."
  | .DeploymentReadyStateError => "Deployment ready state is set to ERROR."
  | .DeploymentUrlMismatchError => "Deployment url does not match the requested deployment."
  | .NoDeploymentUrlError => "No deployment URL."
  | .NotAuthroizedError => "Not authorized."
  | .UploadError code => "File upload failed, code: " ++ code ++ "."
  | .DeployErrors e => e.Message
  | .Errorf msg => msg
  | .Read msg => msg
  | .NewRequest msg => msg
  | .Transport msg => msg
  | .Json msg => msg

/-- Body of an upload response (`UploadResponse`); `Error` is the nullable
pointer to an `UploadError`, represented by its `Code`. -/
structure UploadResponse where
  Error : Option String
  deriving DecidableEq, Repr

/-- One file of a created deployment (`DeployedFile`). -/
structure DeployedFile where
  Name : String
  Url : String
  Sha : String
  deriving DecidableEq, Repr

/-- Body of a deployment response (`DeployResponse`). -/
structure DeployResponse where
  ID : String
  Url : String
  ReadyState : String
  Error : Option DeployErrors
  Files : List DeployedFile
  deriving DecidableEq, Repr

/-- One file of a deployment request (`DeploymentFile`). -/
structure DeploymentFile where
  File : String
  Sha : String
  Size : Nat
  deriving DecidableEq, Repr

/-- Body of a create-deployment request (`DeploymentRequest`). -/
structure DeploymentRequest where
  Public : Bool
  Version : Nat
  Name : String
  Files : List DeploymentFile
  deriving DecidableEq, Repr

/-- The configuration fields of `Client`; `HttpClient` is the environment. -/
structure Client where
  Token : String
  DeploymentName : String
  Team : String
  Retries : Nat
  deriving DecidableEq, Repr

/-- Record of an uploaded blob (`UploadedFile`); `Len` is an `int64` byte count. -/
structure UploadedFile where
  Name : String
  Sha : String
  Len : Nat
  deriving DecidableEq, Repr

/-- A single-pass `io.Reader`: the bytes it has not delivered yet, and the error
it reports in place of end-of-file once they are delivered (`none` for a reader
that ends normally). -/
structure Reader where
  pending : List UInt8
  fault : Option Err
  deriving DecidableEq, Repr

/-- A named blob to upload (`FileToUpload`). -/
structure FileToUpload where
  Name : String
  Reader : Storage.Reader
  deriving DecidableEq, Repr

/-! ## The environment: readers and HTTP exchanges -/

/-- Result of `bytes.NewReader(b)` and of a filled `bytes.Buffer`. -/
def bytesReader (b : List UInt8) : Reader := ⟨b, none⟩

/-- Result of `ioutil.ReadAll(r)` and of `io.Copy(dst, r)`: the bytes delivered, the
error, and the reader afterwards, which has nothing left to deliver. -/
def readAll (r : Reader) : List UInt8 × Option Err × Reader :=
  (r.pending, r.fault, ⟨[], r.fault⟩)

/-- What reading and decoding a response body gives: `ioutil.ReadAll` fails,
`json.Unmarshal` fails, or the body decodes to a value. -/
inductive Body (α : Type) where
  | unreadable (e : Err)
  | invalid (e : Err)
  | parsed (v : α)
  deriving DecidableEq, Repr

/-- What one `http.NewRequest` followed by `httpClient.Do` gives: the request
cannot be built, the transport fails, or a response with a status code comes back. -/
inductive Exchange (α : Type) where
  | noRequest (e : Err)
  | noResponse (e : Err)
  | response (StatusCode : Nat) (body : Body α)
  deriving DecidableEq, Repr

deriving instance DecidableEq for Except

/-- The constant `http.StatusOK`. -/
def StatusOK : Nat := 200

/-! ## SHA-1 (`crypto/sha1`) and hex encoding (`encoding/hex`) -/

/-- Rotate a 32-bit word left by `n` bits, `0 < n < 32`. -/
def rotl32 (x n : Nat) : Nat :=
  ((x <<< n) ||| (x >>> (32 - n))) % 2 ^ 32

/-- Big-endian bytes of `x`, `n` of them. -/
def beBytes : Nat → Nat → List Nat
  | 0, _ => []
  | n + 1, x => (x >>> (8 * n)) % 256 :: beBytes n x

/-- The message with the SHA-1 padding: a `0x80` byte, zeros up to 56 modulo 64,
and the bit length as a 64-bit big-endian number. -/
def sha1Pad (msg : List Nat) : List Nat :=
  let l := msg.length
  msg ++ [0x80] ++ List.replicate ((119 - l % 64) % 64) 0 ++ beBytes 8 ((8 * l) % 2 ^ 64)

/-- Big-endian 32-bit words of a byte list, `n` of them. -/
def beWords : Nat → List Nat → List Nat
  | 0, _ => []
  | n + 1, bs =>
    (bs.getD 0 0 * 2 ^ 24 + bs.getD 1 0 * 2 ^ 16 + bs.getD 2 0 * 2 ^ 8 + bs.getD 3 0)
      :: beWords n (bs.drop 4)

/-- Extend a message schedule, kept newest word first, by `n` words. -/
def sha1Schedule : Nat → List Nat → List Nat
  | 0, w => w
  | n + 1, w =>
    sha1Schedule n
      (rotl32 (w.getD 2 0 ^^^ w.getD 7 0 ^^^ w.getD 13 0 ^^^ w.getD 15 0) 1 :: w)

/-- The round function and constant of round `t`. -/
def sha1F (t b c d : Nat) : Nat × Nat :=
  if t < 20 then ((b &&& c) ||| ((2 ^ 32 - 1 - b) &&& d), 0x5A827999)
  else if t < 40 then (b ^^^ c ^^^ d, 0x6ED9EBA1)
  else if t < 60 then ((b &&& c) ||| (b &&& d) ||| (c &&& d), 0x8F1BBCDC)
  else (b ^^^ c ^^^ d, 0xCA62C1D6)

/-- The working registers of SHA-1. -/
structure Sha1State where
  a : Nat
  b : Nat
  c : Nat
  d : Nat
  e : Nat
  deriving DecidableEq, Repr

/-- Run the rounds over the schedule words, starting at round `t`. -/
def sha1Rounds : List Nat → Nat → Sha1State → Sha1State
  | [], _, s => s
  | w :: ws, t, s =>
    let fk := sha1F t s.b s.c s.d
    sha1Rounds ws (t + 1)
      ⟨(rotl32 s.a 5 + fk.1 + s.e + fk.2 + w) % 2 ^ 32, s.a, rotl32 s.b 30, s.c, s.d⟩

/-- Process one 64-byte block. -/
def sha1Block (h : Sha1State) (block : List Nat) : Sha1State :=
  let w := (sha1Schedule 64 (beWords 16 block).reverse).reverse
  let s := sha1Rounds w 0 h
  ⟨(h.a + s.a) % 2 ^ 32, (h.b + s.b) % 2 ^ 32, (h.c + s.c) % 2 ^ 32,
    (h.d + s.d) % 2 ^ 32, (h.e + s.e) % 2 ^ 32⟩

/-- Process `n` consecutive 64-byte blocks. -/
def sha1Blocks : Nat → List Nat → Sha1State → Sha1State
  | 0, _, h => h
  | n + 1, bs, h => sha1Blocks n (bs.drop 64) (sha1Block h (bs.take 64))

/-- The 20-byte SHA-1 digest of a byte string (`sha1.New`, `Write`, `Sum(nil)`). -/
def sha1Sum (msg : List UInt8) : List Nat :=
  let p := sha1Pad (msg.map UInt8.toNat)
  let h := sha1Blocks (p.length / 64) p
    ⟨0x67452301, 0xEFCDAB89, 0x98BADCFE, 0x10325476, 0xC3D2E1F0⟩
  beBytes 4 h.a ++ beBytes 4 h.b ++ beBytes 4 h.c ++ beBytes 4 h.d ++ beBytes 4 h.e

/-- One lowercase hexadecimal digit. -/
def hexDigit (n : Nat) : Char :=
  "0123456789abcdef".toList.getD n '0'

/-- Lowercase hexadecimal text of a byte list (`hex.EncodeToString`). -/
def hexEncode (bs : List Nat) : String :=
  String.mk (bs.flatMap fun b => [hexDigit (b / 16), hexDigit (b % 16)])

/-! ## Constants and helpers (`utils.go`) -/

/-- The constant `DeploymentName`. -/
def DeploymentName : String := "now-storage"

/-- The constant `DeployUrl`. -/
def DeployUrl : String := "https://api.zeit.co/v10/now/deployments"

/-- The constant `DeploymentUrl`. -/
def DeploymentUrl : String := "https://api.zeit.co/v10/now/deployments/get?url="

/-- The constant `FileUrl`. -/
def FileUrl : String := "https://api.zeit.co/v2/now/files"

/-- The function `Len`: copies the reader into a fresh buffer and returns the number
of bytes copied with that buffer; on a read error it returns `0`, the reader it
was given and the error. -/
def Len (reader : Reader) : Nat × Reader × Option Err :=
  match readAll reader with
  | (_, some err, reader) => (0, reader, some err)
  | (tempBuff, none, _) => (tempBuff.length, bytesReader tempBuff, none)

/-- The function `GetSha1`: reads the reader to its end and returns the hex SHA-1 of
the bytes with a fresh reader over them; on a read error it returns the empty
string, the reader it was given and the error. -/
def GetSha1 (reader : Reader) : String × Reader × Option Err :=
  match readAll reader with
  | (_, some err, reader) => ("", reader, some err)
  | (bts, none, _) => (hexEncode (sha1Sum bts), bytesReader bts, none)

/-- The method `Client.GetDeploymentName`. -/
def GetDeploymentName (client : Client) : String :=
  let deploymentName := client.DeploymentName
  if deploymentName = "" then DeploymentName else deploymentName

/-- The method `Client.GetDeployUrl`. -/
def GetDeployUrl (client : Client) : String :=
  let res := DeployUrl
  if client.Team ≠ "" then res ++ ("?teamId=" ++ client.Team) else res

/-- The method `Client.GetDeploymentUrl`. -/
def GetDeploymentUrl (_client : Client) (deployment : DeployResponse) : String :=
  DeploymentName ++ deployment.Url

/-- The method `Client.GetFileUrl`. -/
def GetFileUrl (client : Client) : String :=
  let res := FileUrl
  if client.Team ≠ "" then res ++ ("?teamId=" ++ client.Team) else res

/-- The method `Client.GetBearerToken`. -/
def GetBearerToken (client : Client) : String :=
  "Bearer " ++ client.Token

/-! ## Single calls (`client.go`): `UploadFile` and `CreateDeployment` -/

/-- An HTTP request as built by `http.NewRequest` and `Header.Add`; `β` is the body. -/
structure Request (β : Type) where
  Method : String
  Url : String
  Header : List (String × String)
  Body : β
  deriving DecidableEq, Repr

/-- What a call of `UploadFile` does: the state of the reader it was given once it
returns, the request it handed to `httpClient.Do` (if it got that far), and the
returned pair as a success or an error. -/
structure UploadFileResult where
  file : Reader
  request : Option (Request (List UInt8))
  result : Except Err UploadedFile

/-- The method `Client.UploadFile`, given the exchange the HTTP client produces. -/
def UploadFile (client : Client) (file : Reader) (name : String)
    (exchange : Exchange UploadResponse) : UploadFileResult :=
  let fileUrl := GetFileUrl client
  -- `GetSha1` is the only reader of the caller's `file`
  let consumed := (readAll file).2.2
  match GetSha1 file with
  | (_, _, some err) => ⟨consumed, none, .error err⟩
  | (sha, file, none) =>
    match Len file with
    | (_, _, some err) => ⟨consumed, none, .error err⟩
    | (length, file, none) =>
      let lengthStr := toString length
      let request : Request (List UInt8) :=
        ⟨"POST", fileUrl,
          [("Authorization", GetBearerToken client),
           ("Content-Type", "application/octet-stream"),
           ("Content-Length", lengthStr),
           ("x-now-size", lengthStr),
           ("x-now-digest", sha)],
          file.pending⟩
      match exchange with
      | .noRequest err => ⟨consumed, none, .error err⟩
      | .noResponse err => ⟨consumed, some request, .error err⟩
      | .response StatusCode resBody =>
        if StatusCode ≠ StatusOK then
          match resBody with
          | .unreadable err => ⟨consumed, some request, .error err⟩
          | .invalid err => ⟨consumed, some request, .error err⟩
          | .parsed body =>
            match body.Error with
            | some code =>
              if code = "forbidden" then ⟨consumed, some request, .error .NotAuthroizedError⟩
              else ⟨consumed, some request, .error (.UploadError code)⟩
            | none =>
              ⟨consumed, some request,
                .error (.Errorf "An unknown error occured while uploading a file.")⟩
        else
          ⟨consumed, some request, .ok ⟨name, sha, length⟩⟩

/-- What a call of `CreateDeployment` does: the request it handed to
`httpClient.Do` (if it got that far) and the returned pair. -/
structure CreateDeploymentResult where
  request : Option (Request DeploymentRequest)
  result : Except Err DeployResponse

/-- The method `Client.CreateDeployment`, given the exchange the HTTP client
produces. The entries of `files` are the records behind the `*UploadedFile`
pointers; `json.Marshal` cannot fail on a `DeploymentRequest`, and the request
body is kept as the value that is marshalled. The status code is not inspected. -/
def CreateDeployment (client : Client) (files : List UploadedFile)
    (exchange : Exchange DeployResponse) : CreateDeploymentResult :=
  let deployUrl := GetDeployUrl client
  let deploymentName := GetDeploymentName client
  let deploymentFiles : List DeploymentFile :=
    files.map fun file => ⟨file.Name, file.Sha, file.Len⟩
  let request : Request DeploymentRequest :=
    ⟨"POST", deployUrl,
      [("Authorization", GetBearerToken client), ("Content-Type", "application/json")],
      ⟨true, 2, deploymentName, deploymentFiles⟩⟩
  match exchange with
  | .noRequest err => ⟨none, .error err⟩
  | .noResponse err => ⟨some request, .error err⟩
  | .response _ resBody =>
    match resBody with
    | .unreadable err => ⟨some request, .error err⟩
    | .invalid err => ⟨some request, .error err⟩
    | .parsed body =>
      match body.Error with
      | some e => ⟨some request, .error (.DeployErrors e)⟩
      | none =>
        let body : DeployResponse :=
          if body.Url ≠ "" then { body with Url := "https://" ++ body.Url } else body
        let resultFiles : List DeployedFile :=
          files.map fun file => ⟨file.Name, body.Url ++ "/" ++ file.Name, file.Sha⟩
        ⟨some request, .ok { body with Files := resultFiles }⟩

/-! ## The retry loop (`github.com/avast/retry-go`, imported without a major-version suffix) -/

/-- The loop of `retry.Do(retryableFunc, retry.Attempts(attempts), retry.RetryIf(retryIf))`
over an explicit state `σ` that both closures may change. The library runs
`for n < attempts`: it calls `retryableFunc`, returns `nil` when that returns
`nil`, and otherwise records the error, asks `retryIf`, leaves the loop when the
answer is `false` or when `n == attempts-1`, and goes on with `n+1` after the
delay. The first argument is `attempts - n`. The result is the final state and
`none` for `nil` or the recorded errors of the returned `retry.Error`. -/
def retryLoop {σ : Type} (retryableFunc : σ → σ × Option Err)
    (retryIf : Err → σ → σ × Bool) : Nat → σ → List Err → σ × Option (List Err)
  | 0, s, errorLog => (s, some errorLog)
  | k + 1, s, errorLog =>
    match retryableFunc s with
    | (s, none) => (s, none)
    | (s, some err) =>
      match retryIf err s with
      | (s, false) => (s, some (errorLog ++ [err]))
      | (s, true) =>
        if k = 0 then (s, some (errorLog ++ [err]))
        else retryLoop retryableFunc retryIf k s (errorLog ++ [err])

/-- The call `retry.Do(retryableFunc, retry.Attempts(attempts), retry.RetryIf(retryIf))`. -/
def retryDo {σ : Type} (retryableFunc : σ → σ × Option Err)
    (retryIf : Err → σ → σ × Bool) (attempts : Nat) (s : σ) : σ × Option (List Err) :=
  retryLoop retryableFunc retryIf attempts s []

/-- The default `RetryIf` of the library, `IsRecoverable`: true for every error that
is not wrapped by `retry.Unrecoverable`, which this package never does. -/
def IsRecoverable {σ : Type} (_err : Err) (s : σ) : σ × Bool := (s, true)

/-- Error returned by `Upload` and `UploadMany`: one of the package errors, or the
`retry.Error` of a `retry.Do` that gave up, as the list of its recorded errors. -/
inductive CallError where
  | plain (e : Err)
  | retried (errorLog : List Err)
  deriving DecidableEq, Repr

/-! ## Registering a deployment with retry (shared by `Upload` and `UploadMany`) -/

/-- Variables the create-deployment closure works on: the captured `deployment`
(`none` for `nil`), the number of `CreateDeployment` calls made, and the file
list of every call. -/
structure DeployState where
  deployment : Option DeployResponse
  calls : Nat
  registered : List (List UploadedFile)

/-- The closure `func() error` around `client.CreateDeployment(uploaded)`: the
exchange of the `n`-th call is `deploys n`. -/
def deployAttempt (client : Client) (uploaded : List UploadedFile)
    (deploys : Nat → Exchange DeployResponse) (s : DeployState) : DeployState × Option Err :=
  match (CreateDeployment client uploaded (deploys s.calls)).result with
  | .ok newDeployment => (⟨some newDeployment, s.calls + 1, s.registered ++ [uploaded]⟩, none)
  | .error err => (⟨none, s.calls + 1, s.registered ++ [uploaded]⟩, some err)

/-- What `Upload` and `UploadMany` did, seen from outside: the returned pair
(`none` when the call never returns), how many upload goroutines were launched,
how many values were received from the result channel, and the file list of
every `CreateDeployment` call in order. -/
structure Report where
  returned : Option (Except CallError DeployResponse)
  launched : Nat
  received : Nat
  registered : List (List UploadedFile)
  deriving DecidableEq, Repr

/-- The tail shared by `Upload` and `UploadMany`: `retry.Do` around
`CreateDeployment(uploaded)` with `retry.Attempts(client.Retries)`, then
`return nil, err` or `return deployment, nil`. -/
def register (client : Client) (uploaded : List UploadedFile)
    (deploys : Nat → Exchange DeployResponse) :
    Option (Except CallError DeployResponse) × List (List UploadedFile) :=
  match retryDo (deployAttempt client uploaded deploys) IsRecoverable client.Retries
      ⟨none, 0, []⟩ with
  | (s, some errorLog) => (some (.error (.retried errorLog)), s.registered)
  | (s, none) =>
    match s.deployment with
    | some deployment => (some (.ok deployment), s.registered)
    -- not reached: a `nil` error comes with a deployment
    | none => (none, s.registered)

/-! ## `Upload` -/

/-- Variables the upload closure of `Upload` works on: the caller's reader, the
captured `uploaded`, the number of `UploadFile` calls made and the requests
handed to the HTTP client. -/
structure UploadState where
  file : Reader
  uploaded : Option UploadedFile
  calls : Nat
  sent : List (Request (List UInt8))

/-- The closure `func() error` around `client.UploadFile(file, name)` in `Upload`:
every call gets the same reader `file`. -/
def uploadAttempt (client : Client) (name : String)
    (uploads : Nat → Exchange UploadResponse) (s : UploadState) : UploadState × Option Err :=
  let r := UploadFile client s.file name (uploads s.calls)
  match r.result with
  | .ok newUploaded => (⟨r.file, some newUploaded, s.calls + 1, s.sent ++ r.request.toList⟩, none)
  | .error err => (⟨r.file, none, s.calls + 1, s.sent ++ r.request.toList⟩, some err)

/-- The first `retry.Do` of `Upload`. -/
def uploadWithRetry (client : Client) (file : Reader) (name : String)
    (uploads : Nat → Exchange UploadResponse) : UploadState × Option (List Err) :=
  retryDo (uploadAttempt client name uploads) IsRecoverable client.Retries ⟨file, none, 0, []⟩

/-- The method `Client.Upload`: the exchange of the `n`-th upload attempt is
`uploads n`, that of the `n`-th create-deployment attempt is `deploys n`. -/
def Upload (client : Client) (file : Reader) (name : String)
    (uploads : Nat → Exchange UploadResponse) (deploys : Nat → Exchange DeployResponse) :
    Report :=
  match uploadWithRetry client file name uploads with
  | (_, some errorLog) => ⟨some (.error (.retried errorLog)), 0, 0, []⟩
  | (s, none) =>
    match s.uploaded with
    | some uploaded =>
      let r := register client [uploaded] deploys
      ⟨r.1, 0, 0, r.2⟩
    -- not reached: a `nil` error comes with an uploaded file
    | none => ⟨none, 0, 0, []⟩

/-! ## `UploadMany`: the goroutine of one file -/

/-- Variables one goroutine of `UploadMany` works on: its reader, `retryCount`,
the values it has sent on `c` in order, and the requests handed to the HTTP client. -/
structure TaskState where
  file : Reader
  retryCount : Nat
  c : List (Option UploadedFile)
  sent : List (Request (List UInt8))

/-- The retried closure of the goroutine: a successful `UploadFile` sends the
uploaded file on `c`; `retryCount` is incremented either way. -/
def taskAttempt (client : Client) (name : String)
    (uploads : Nat → Exchange UploadResponse) (s : TaskState) : TaskState × Option Err :=
  let r := UploadFile client s.file name (uploads s.retryCount)
  match r.result with
  | .ok uploaded =>
    (⟨r.file, s.retryCount + 1, s.c ++ [some uploaded], s.sent ++ r.request.toList⟩, none)
  | .error err =>
    (⟨r.file, s.retryCount + 1, s.c, s.sent ++ r.request.toList⟩, some err)

/-- The `RetryIf` closure of the goroutine: retry while `retryCount < client.Retries`,
otherwise send `nil` on `c` and stop (`err` is never `nil` when the library asks). -/
def taskRetryIf (client : Client) (_err : Err) (s : TaskState) : TaskState × Bool :=
  if s.retryCount < client.Retries then (s, true)
  else ({ s with c := s.c ++ [none] }, false)

/-- The goroutine body of `UploadMany` for one file. -/
def uploadTask (client : Client) (file : FileToUpload)
    (uploads : Nat → Exchange UploadResponse) : TaskState :=
  (retryDo (taskAttempt client file.Name uploads) (taskRetryIf client) client.Retries
    ⟨file.Reader, 0, [], []⟩).1

/-! ## `UploadMany`: collecting the results -/

/-- How the receive loop of `UploadMany` ends, with the number of values it took
from the channel: it waits forever on an empty channel, it returns
`CouldNotUploadError` on a `nil`, or it leaves the loop with `uploaded`. -/
inductive Collected where
  | blocked (received : Nat)
  | failed (received : Nat)
  | complete (uploaded : List UploadedFile) (received : Nat)
  deriving DecidableEq, Repr

/-- The receive loop of `UploadMany` for `n = len(files)`. The first list holds the
values the channel delivers from now on, in order; `uploaded` and `received` are
the slice built and the number of values taken so far. -/
def collect (n : Nat) : List (Option UploadedFile) → List UploadedFile → Nat → Collected
  | [], _, received => .blocked received
  | none :: _, _, received => .failed (received + 1)
  | some r :: rest, uploaded, received =>
    let uploaded := uploaded ++ [r]
    if uploaded.length = n then .complete uploaded (received + 1)
    else collect n rest uploaded (received + 1)

/-- The values sent on the result channel by the goroutines of `files`, task by
task; the exchange of the `k`-th attempt of task `i` is `uploads i k`. -/
def emitted (client : Client) (files : List FileToUpload)
    (uploads : Nat → Nat → Exchange UploadResponse) : List (List (Option UploadedFile)) :=
  files.enum.map fun p => (uploadTask client p.2 (uploads p.1)).c

/-- The method `Client.UploadMany`, given the order `arrivals` in which the channel
delivers the values sent by the goroutines. -/
def UploadMany (client : Client) (files : List FileToUpload)
    (arrivals : List (Option UploadedFile)) (deploys : Nat → Exchange DeployResponse) :
    Report :=
  match collect files.length arrivals [] 0 with
  | .blocked received => ⟨none, files.length, received, []⟩
  | .failed received => ⟨some (.error (.plain .CouldNotUploadError)), files.length, received, []⟩
  | .complete uploaded received =>
    let r := register client uploaded deploys
    ⟨r.1, files.length, received, r.2⟩

/-! ## `WaitForReady` -/

/-- How far a call of `WaitForReady` got: `returned` is `none` while the loop is
still polling when the given exchanges run out, `some none` for `return nil` and
`some (some e)` for `return e`; `deployment` is the parameter variable at that
point, `requested` the URLs of the requests built, `polls` the number of
exchanges used. -/
structure WaitReport where
  returned : Option (Option Err)
  deployment : DeployResponse
  requested : List String
  polls : Nat
  deriving DecidableEq, Repr

/-- The `for` loop of `WaitForReady`; the exchanges of the successive polls are
given as a list. -/
def waitLoop (client : Client) :
    List (Exchange DeployResponse) → DeployResponse → List String → Nat → WaitReport
  | [], deployment, requested, polls =>
    if deployment.ReadyState = "READY" then ⟨some none, deployment, requested, polls⟩
    else if deployment.ReadyState = "ERROR" then
      ⟨some (some .DeploymentReadyStateError), deployment, requested, polls⟩
    else ⟨none, deployment, requested, polls⟩
  | exchange :: rest, deployment, requested, polls =>
    if deployment.ReadyState = "READY" then ⟨some none, deployment, requested, polls⟩
    else if deployment.ReadyState = "ERROR" then
      ⟨some (some .DeploymentReadyStateError), deployment, requested, polls⟩
    else
      let deploymentUrl := GetDeploymentUrl client deployment
      match exchange with
      | .noRequest err => ⟨some (some err), deployment, requested, polls + 1⟩
      | .noResponse err =>
        ⟨some (some err), deployment, requested ++ [deploymentUrl], polls + 1⟩
      | .response StatusCode resBody =>
        if StatusCode ≠ StatusOK then
          ⟨some (some .CouldNotGetDeploymentError), deployment,
            requested ++ [deploymentUrl], polls + 1⟩
        else
          match resBody with
          | .unreadable err =>
            ⟨some (some err), deployment, requested ++ [deploymentUrl], polls + 1⟩
          | .invalid err =>
            ⟨some (some err), deployment, requested ++ [deploymentUrl], polls + 1⟩
          | .parsed body =>
            if "https://" ++ body.Url ≠ deployment.Url then
              ⟨some (some .DeploymentUrlMismatchError), deployment,
                requested ++ [deploymentUrl], polls + 1⟩
            else
              waitLoop client rest { deployment with ReadyState := body.ReadyState }
                (requested ++ [deploymentUrl]) (polls + 1)

/-- The method `Client.WaitForReady` on its parameter `deployment`. -/
def WaitForReady (client : Client) (deployment : DeployResponse)
    (exchanges : List (Exchange DeployResponse)) : WaitReport :=
  if deployment.Url = "" then ⟨some (some .NoDeploymentUrlError), deployment, [], 0⟩
  else waitLoop client exchanges deployment [] 0

/-- A call `client.WaitForReady(d)` seen from the caller: the returned error and
the caller's `d` afterwards. The parameter is declared `deployment DeployResponse`,
a struct passed by value, so the assignments made by the loop go to the callee's
copy and the caller's value is the one it passed. -/
def callWaitForReady (client : Client) (d : DeployResponse)
    (exchanges : List (Exchange DeployResponse)) : Option (Option Err) × DeployResponse :=
  ((WaitForReady client d exchanges).returned, d)

/-! ## Concrete inputs -/

/-- A client with the attempt budget of the tests. -/
def exClient : Client := ⟨"token", "", "", 2⟩

/-- A create-deployment exchange that succeeds. -/
def exDeploys : Nat → Exchange DeployResponse :=
  fun _ => .response 200 (.parsed ⟨"dpl_1", "x.now.sh", "INITIALIZING", none, []⟩)

/-- Two one-byte files. -/
def exFiles : List FileToUpload :=
  [⟨"a.txt", bytesReader [97]⟩, ⟨"b.txt", bytesReader [98]⟩]

/-- Upload exchanges under which every attempt for the first file fails and every
attempt for the second succeeds. -/
def exUploads : Nat → Nat → Exchange UploadResponse :=
  fun i _ => if i = 0 then .noResponse (.Transport "connection reset")
    else .response 200 (.parsed ⟨none⟩)

/-- The record of the second file of `exFiles`. -/
def exUploadedB : UploadedFile := ⟨"b.txt", "e9d71f5ee7c92d6dc9e92ffdad17b8bd49418f98", 1⟩

/-- A deployment as `CreateDeployment` returns it, not ready yet. -/
def exDeployment : DeployResponse := ⟨"dpl_1", "https://x.now.sh", "INITIALIZING", none, []⟩

/-- A poll exchange with status 200 and a body that decodes to `body`. -/
def okPoll (body : DeployResponse) : Exchange DeployResponse :=
  .response StatusOK (.parsed body)

/-- The poll response that reports `exDeployment` ready. -/
def exPollReady : Exchange DeployResponse :=
  okPoll ⟨"dpl_1", "x.now.sh", "READY", none, []⟩

/-- The four bytes `test`. -/
def exBlob : List UInt8 := [116, 101, 115, 116]

/-- Upload exchanges whose first attempt fails in the transport and whose later
attempts get status 200. -/
def exFlakyUploads : Nat → Exchange UploadResponse :=
  fun n => if n = 0 then .noResponse (.Transport "connection reset")
    else .response 200 (.parsed ⟨none⟩)

set_option maxRecDepth 100000

/-! ## Lemmas on the receive loop -/

/-- A list of channel values that holds a `nil` splits at its first `nil`. -/
theorem split_at_first_nil {α : Type} (l : List (Option α)) (h : none ∈ l) :
    ∃ (pre : List α) (rest : List (Option α)), l = pre.map some ++ none :: rest := by
  induction l with
  | nil => simp at h
  | cons x xs ih =>
    cases x with
    | none => exact ⟨[], xs, rfl⟩
    | some a =>
      have h1 : none ∈ xs := by simpa using h
      obtain ⟨pre, rest, hx⟩ := ih h1
      exact ⟨a :: pre, rest, by simp [hx]⟩

/-- A list of channel values without `nil` is a list of uploaded files. -/
theorem all_some_of_no_nil {α : Type} (l : List (Option α)) (h : none ∉ l) :
    ∃ us : List α, l = us.map some := by
  induction l with
  | nil => exact ⟨[], rfl⟩
  | cons x xs ih =>
    cases x with
    | none => simp at h
    | some a =>
      have h1 : none ∉ xs := by
        intro hx
        exact h (List.mem_cons_of_mem _ hx)
      obtain ⟨us, hx⟩ := ih h1
      exact ⟨a :: us, by simp [hx]⟩

/-- One turn of the receive loop on a success. -/
theorem collect_cons_some (n : Nat) (r : UploadedFile) (rest : List (Option UploadedFile))
    (uploaded : List UploadedFile) (received : Nat) :
    collect n (some r :: rest) uploaded received
      = if (uploaded ++ [r]).length = n then .complete (uploaded ++ [r]) (received + 1)
        else collect n rest (uploaded ++ [r]) (received + 1) := rfl

/-- When exactly the missing number of successes arrives, the loop takes them all
and leaves with the files in arrival order. -/
theorem collect_all_success (n : Nat) (us : List UploadedFile) :
    ∀ (uploaded : List UploadedFile) (received : Nat), us ≠ [] →
      uploaded.length + us.length = n →
      collect n (us.map some) uploaded received
        = .complete (uploaded ++ us) (received + us.length) := by
  induction us with
  | nil => intro _ _ h; exact absurd rfl h
  | cons u us ih =>
    intro uploaded received _ hlen
    cases us with
    | nil =>
      have h1 : (uploaded ++ [u]).length = n := by simpa using hlen
      rw [List.map_cons, collect_cons_some, if_pos h1]
      rfl
    | cons v vs =>
      have h1 : (uploaded ++ [u]).length ≠ n := by
        simp only [List.length_append, List.length_cons, List.length_nil] at hlen ⊢
        omega
      have h2 : (uploaded ++ [u]).length + (v :: vs).length = n := by
        simp only [List.length_append, List.length_cons, List.length_nil] at hlen ⊢
        omega
      have h3 := ih (uploaded ++ [u]) (received + 1) (by simp) h2
      rw [List.map_cons, collect_cons_some, if_neg h1, h3, List.append_assoc,
        List.singleton_append]
      congr 1
      simp only [List.length_cons]
      omega

/-- When a `nil` arrives before the slice is full, the loop returns at that `nil`
and takes nothing after it. -/
theorem collect_first_nil (n : Nat) (pre : List UploadedFile)
    (rest : List (Option UploadedFile)) :
    ∀ (uploaded : List UploadedFile) (received : Nat), uploaded.length + pre.length < n →
      collect n (pre.map some ++ none :: rest) uploaded received
        = .failed (received + pre.length + 1) := by
  induction pre with
  | nil => intro uploaded received _; simp [collect]
  | cons u us ih =>
    intro uploaded received hlen
    have h1 : (uploaded ++ [u]).length ≠ n := by
      simp only [List.length_append, List.length_cons, List.length_nil] at hlen ⊢
      omega
    have h2 : (uploaded ++ [u]).length + us.length < n := by
      simp only [List.length_append, List.length_cons, List.length_nil] at hlen ⊢
      omega
    have h3 := ih (uploaded ++ [u]) (received + 1) h2
    rw [List.map_cons, List.cons_append, collect_cons_some, if_neg h1, h3]
    congr 1
    simp only [List.length_cons]
    omega

/-- Every file list recorded by the create-deployment retry loop is the list it
was started with. -/
theorem retryLoop_registered (client : Client) (uploaded : List UploadedFile)
    (deploys : Nat → Exchange DeployResponse) :
    ∀ (k : Nat) (s : DeployState) (errorLog : List Err),
      (∀ x ∈ s.registered, x = uploaded) →
      ∀ x ∈ (retryLoop (deployAttempt client uploaded deploys) IsRecoverable k s
          errorLog).1.registered, x = uploaded := by
  intro k
  induction k with
  | zero => intro s errorLog hs; simpa [retryLoop] using hs
  | succ k ih =>
    intro s errorLog hs
    have hstep : ∀ x ∈ (deployAttempt client uploaded deploys s).1.registered,
        x = uploaded := by
      intro x hx
      unfold deployAttempt at hx
      split at hx <;>
        · simp only [List.mem_append, List.mem_singleton] at hx
          rcases hx with hx | hx
          · exact hs x hx
          · exact hx
    unfold retryLoop
    rcases hfn : deployAttempt client uploaded deploys s with ⟨s1, _ | err⟩
    · rw [hfn] at hstep
      simpa using hstep
    · rw [hfn] at hstep
      simp only [IsRecoverable]
      split
      · simpa using hstep
      · exact ih s1 _ hstep

/-- Every `CreateDeployment` call made by `register` gets the list `uploaded`. -/
theorem register_registered (client : Client) (uploaded : List UploadedFile)
    (deploys : Nat → Exchange DeployResponse) :
    ∀ x ∈ (register client uploaded deploys).2, x = uploaded := by
  have h := retryLoop_registered client uploaded deploys client.Retries ⟨none, 0, []⟩ []
    (by simp)
  intro x hx
  unfold register retryDo at hx
  split at hx
  · rename_i s errorLog heq
    rw [heq] at h
    exact h x hx
  · rename_i s heq
    rw [heq] at h
    split at hx <;> exact h x hx

/-- The retry loop around `CreateDeployment` never forgets a recorded call. -/
theorem retryLoop_registered_ne_nil (client : Client) (uploaded : List UploadedFile)
    (deploys : Nat → Exchange DeployResponse) :
    ∀ (k : Nat) (s : DeployState) (errorLog : List Err), s.registered ≠ [] →
      (retryLoop (deployAttempt client uploaded deploys) IsRecoverable k s
        errorLog).1.registered ≠ [] := by
  intro k
  induction k with
  | zero => intro s errorLog hs; simpa [retryLoop] using hs
  | succ k ih =>
    intro s errorLog _
    have hstep : (deployAttempt client uploaded deploys s).1.registered ≠ [] := by
      unfold deployAttempt
      split <;> simp
    unfold retryLoop
    rcases hfn : deployAttempt client uploaded deploys s with ⟨s1, _ | err⟩
    · rw [hfn] at hstep
      simpa using hstep
    · rw [hfn] at hstep
      simp only [IsRecoverable]
      split
      · simpa using hstep
      · exact ih s1 _ hstep

/-- With a budget of at least one attempt `register` calls `CreateDeployment`. -/
theorem register_calls (client : Client) (uploaded : List UploadedFile)
    (deploys : Nat → Exchange DeployResponse) (h : 0 < client.Retries) :
    (register client uploaded deploys).2 ≠ [] := by
  obtain ⟨k, hk⟩ := Nat.exists_eq_succ_of_ne_zero (Nat.pos_iff_ne_zero.mp h)
  have hstep : (deployAttempt client uploaded deploys ⟨none, 0, []⟩).1.registered ≠ [] := by
    unfold deployAttempt
    split <;> simp
  have hloop : (retryLoop (deployAttempt client uploaded deploys) IsRecoverable
      client.Retries ⟨none, 0, []⟩ []).1.registered ≠ [] := by
    rw [hk]
    unfold retryLoop
    rcases hfn : deployAttempt client uploaded deploys ⟨none, 0, []⟩ with ⟨s1, _ | err⟩
    · rw [hfn] at hstep
      simpa using hstep
    · rw [hfn] at hstep
      simp only [IsRecoverable]
      split
      · simpa using hstep
      · exact retryLoop_registered_ne_nil client uploaded deploys k s1 _ hstep
  unfold register retryDo
  split
  · rename_i s errorLog heq
    rw [heq] at hloop
    exact hloop
  · rename_i s heq
    rw [heq] at hloop
    split <;> exact hloop

/-! ## `UploadMany`: all files or no deployment -/

/-- When every task of a non-empty batch delivers a success and the budget is at
least one attempt, `UploadMany` does call `CreateDeployment`, and every call
gets the successes in arrival order. -/
theorem uploadMany_success_registers (client : Client) (files : List FileToUpload)
    (us : List UploadedFile) (deploys : Nat → Exchange DeployResponse)
    (hfiles : files ≠ []) (hlen : us.length = files.length) (h : 0 < client.Retries) :
    (UploadMany client files (us.map some) deploys).registered ≠ [] ∧
    (UploadMany client files (us.map some) deploys).received = files.length ∧
    ∀ x ∈ (UploadMany client files (us.map some) deploys).registered, x = us := by
  have hne : us ≠ [] := by
    intro h0
    rw [h0] at hlen
    exact hfiles (List.length_eq_zero.mp hlen.symm)
  have hc := collect_all_success files.length us [] 0 hne (by simp [hlen])
  have hreg : (UploadMany client files (us.map some) deploys).registered
      = (register client us deploys).2 := by
    simp [UploadMany, hc]
  refine ⟨?_, by simp [UploadMany, hc, hlen], ?_⟩
  · rw [hreg]
    exact register_calls client us deploys h
  · rw [hreg]
    exact register_registered client us deploys


/-- C1. For a non-empty batch whose tasks deliver one result each, in any order:
if some result is the `nil` sentinel, `UploadMany` returns `CouldNotUploadError`
and never calls `CreateDeployment`; and every `CreateDeployment` call it makes
happens with all results successful and gets a list holding each task's
uploaded file exactly once. -/
theorem uploadMany_all_or_nothing (client : Client) (files : List FileToUpload)
    (results arrivals : List (Option UploadedFile)) (deploys : Nat → Exchange DeployResponse)
    (hfiles : files ≠ []) (hresults : results.length = files.length)
    (harrive : arrivals.Perm results) :
    (none ∈ results →
      (UploadMany client files arrivals deploys).returned
          = some (.error (.plain .CouldNotUploadError)) ∧
        (UploadMany client files arrivals deploys).registered = []) ∧
    (∀ uploaded ∈ (UploadMany client files arrivals deploys).registered,
      (∀ r ∈ results, r ≠ none) ∧ (uploaded.map some).Perm results) := by
  have hlen : arrivals.length = files.length := by rw [harrive.length_eq, hresults]
  have hpos : 0 < files.length := List.length_pos.mpr hfiles
  by_cases hnil : none ∈ arrivals
  · obtain ⟨pre, rest, hsplit⟩ := split_at_first_nil arrivals hnil
    have hpre : ([] : List UploadedFile).length + pre.length < files.length := by
      rw [← hlen, hsplit]
      simp
    have hc := collect_first_nil files.length pre rest [] 0 hpre
    rw [← hsplit] at hc
    have hreg : (UploadMany client files arrivals deploys).registered = [] := by
      simp [UploadMany, hc]
    refine ⟨fun _ => ⟨by simp [UploadMany, hc], hreg⟩, ?_⟩
    intro uploaded hu
    rw [hreg] at hu
    simp at hu
  · have hres : none ∉ results := fun h => hnil (harrive.mem_iff.mpr h)
    refine ⟨fun h => absurd h hres, ?_⟩
    obtain ⟨us, hus⟩ := all_some_of_no_nil arrivals hnil
    have hne : us ≠ [] := by
      intro h
      rw [hus, h] at hlen
      simp at hlen
      omega
    have hc := collect_all_success files.length us [] 0 hne (by
      rw [← hlen, hus]
      simp)
    rw [← hus] at hc
    intro uploaded hu
    have hreg : (UploadMany client files arrivals deploys).registered
        = (register client us deploys).2 := by
      simp [UploadMany, hc]
    rw [hreg] at hu
    have hup := register_registered client us deploys uploaded hu
    refine ⟨fun r hr h => hres (h ▸ hr), ?_⟩
    rw [hup, ← hus]
    exact harrive

/-- An instance of C1: two files, the second result arrives first and the first
task reports failure. -/
theorem uploadMany_all_or_nothing_witness :
    exFiles ≠ [] ∧ [none, some exUploadedB].length = exFiles.length ∧
    [some exUploadedB, none].Perm [none, some exUploadedB] ∧
    ((none ∈ [none, some exUploadedB] →
      (UploadMany exClient exFiles [some exUploadedB, none] exDeploys).returned
          = some (.error (.plain .CouldNotUploadError)) ∧
        (UploadMany exClient exFiles [some exUploadedB, none] exDeploys).registered = []) ∧
    (∀ uploaded ∈ (UploadMany exClient exFiles [some exUploadedB, none] exDeploys).registered,
      (∀ r ∈ [none, some exUploadedB], r ≠ none) ∧
        (uploaded.map some).Perm [none, some exUploadedB])) :=
  ⟨by decide, by decide, List.Perm.swap _ _ _,
    uploadMany_all_or_nothing exClient exFiles [none, some exUploadedB]
      [some exUploadedB, none] exDeploys (by decide) (by decide) (List.Perm.swap _ _ _)⟩

/-- C4. With an empty list of files `UploadMany` launches no goroutine, so nothing is
ever sent on the channel, and its first receive waits forever: it does not
return and makes no `CreateDeployment` call. -/
theorem uploadMany_empty_blocks (client : Client)
    (uploads : Nat → Nat → Exchange UploadResponse) (deploys : Nat → Exchange DeployResponse) :
    emitted client [] uploads = [] ∧
      UploadMany client [] [] deploys = ⟨none, 0, 0, []⟩ := by
  constructor <;> rfl

/-- C10, as stated, fails: with two files whose first task gives up and whose second
succeeds, and the sentinel arriving first, `UploadMany` takes one value from the
channel, not two, before it returns the aggregate error. -/
theorem uploadMany_stops_at_first_nil :
    exFiles.length = 2 ∧
    emitted exClient exFiles exUploads = [[none], [some exUploadedB]] ∧
    (UploadMany exClient exFiles [none, some exUploadedB] exDeploys).returned
      = some (.error (.plain .CouldNotUploadError)) ∧
    (UploadMany exClient exFiles [none, some exUploadedB] exDeploys).received = 1 ∧
    (UploadMany exClient exFiles [none, some exUploadedB] exDeploys).received
      ≠ exFiles.length := by
  refine ⟨by rfl, by rfl, by decide, by decide, by decide⟩

/-- C10, amended. For a non-empty batch and an arrival sequence of `len(files)` values:
when no value is the sentinel `UploadMany` receives all `len(files)` values;
when one is, it receives the values up to and including the first sentinel,
returns `CouldNotUploadError` at once, and the values after it are not received. -/
theorem uploadMany_received (client : Client) (files : List FileToUpload)
    (arrivals : List (Option UploadedFile)) (deploys : Nat → Exchange DeployResponse)
    (hfiles : files ≠ []) (hlen : arrivals.length = files.length) :
    ((∀ r ∈ arrivals, r ≠ none) →
      (UploadMany client files arrivals deploys).received = files.length) ∧
    (∀ (pre : List UploadedFile) (rest : List (Option UploadedFile)),
      arrivals = pre.map some ++ none :: rest →
      (UploadMany client files arrivals deploys).received = pre.length + 1 ∧
        (UploadMany client files arrivals deploys).returned
          = some (.error (.plain .CouldNotUploadError))) := by
  constructor
  · intro hall
    have hnil : none ∉ arrivals := fun h => hall none h rfl
    obtain ⟨us, hus⟩ := all_some_of_no_nil arrivals hnil
    have hne : us ≠ [] := by
      intro h
      rw [hus, h] at hlen
      exact hfiles (List.length_eq_zero.mp hlen.symm)
    have hc := collect_all_success files.length us [] 0 hne (by
      rw [← hlen, hus]
      simp)
    rw [← hus] at hc
    have hl : us.length = files.length := by
      rw [← hlen, hus]
      simp
    simp [UploadMany, hc, hl]
  · intro pre rest hsplit
    have hpre : ([] : List UploadedFile).length + pre.length < files.length := by
      rw [← hlen, hsplit]
      simp
    have hc := collect_first_nil files.length pre rest [] 0 hpre
    rw [← hsplit] at hc
    simp [UploadMany, hc]

/-- An instance of the amended C10: the sentinel arrives first of two values. -/
theorem uploadMany_received_witness :
    exFiles ≠ [] ∧ [none, some exUploadedB].length = exFiles.length ∧
    (((∀ r ∈ [none, some exUploadedB], r ≠ none) →
      (UploadMany exClient exFiles [none, some exUploadedB] exDeploys).received
        = exFiles.length) ∧
    (∀ (pre : List UploadedFile) (rest : List (Option UploadedFile)),
      [none, some exUploadedB] = pre.map some ++ none :: rest →
      (UploadMany exClient exFiles [none, some exUploadedB] exDeploys).received
          = pre.length + 1 ∧
        (UploadMany exClient exFiles [none, some exUploadedB] exDeploys).returned
          = some (.error (.plain .CouldNotUploadError)))) :=
  ⟨by decide, by decide,
    uploadMany_received exClient exFiles [none, some exUploadedB] exDeploys
      (by decide) (by decide)⟩

/-! ## `CreateDeployment`: the files of the returned deployment -/

/-- C3. For every list of uploaded files and every create-deployment response whose
body decodes without an error object, `CreateDeployment` returns a deployment
whose `Files` has the length of the input and whose `i`-th entry has the `i`-th
input's `Name` and `Sha` and the `Url` made of the returned deployment's `Url`,
a slash and that `Name`. -/
theorem createDeployment_files (client : Client) (files : List UploadedFile)
    (StatusCode : Nat) (body : DeployResponse) (herr : body.Error = none) :
    ∃ d : DeployResponse,
      (CreateDeployment client files (.response StatusCode (.parsed body))).result = .ok d ∧
      d.Files.length = files.length ∧
      ∀ (i : Nat) (file : UploadedFile), files[i]? = some file →
        d.Files[i]? = some ⟨file.Name, d.Url ++ "/" ++ file.Name, file.Sha⟩ := by
  simp only [CreateDeployment, herr]
  refine ⟨_, rfl, by simp, ?_⟩
  intro i file hi
  simp [List.getElem?_map, hi]

/-- An instance of C3: one file and a response with a schemeless host. -/
theorem createDeployment_files_witness :
    (⟨"dpl_1", "x.now.sh", "INITIALIZING", none, []⟩ : DeployResponse).Error = none ∧
    ∃ d : DeployResponse,
      (CreateDeployment exClient [exUploadedB]
        (.response 200 (.parsed ⟨"dpl_1", "x.now.sh", "INITIALIZING", none, []⟩))).result
          = .ok d ∧
      d.Files.length = [exUploadedB].length ∧
      ∀ (i : Nat) (file : UploadedFile), [exUploadedB][i]? = some file →
        d.Files[i]? = some ⟨file.Name, d.Url ++ "/" ++ file.Name, file.Sha⟩ :=
  ⟨rfl, createDeployment_files exClient [exUploadedB] 200
    ⟨"dpl_1", "x.now.sh", "INITIALIZING", none, []⟩ rfl⟩

/-! ## `UploadFile`: a response with a non-success status -/

/-- C5, as stated, fails: on status 500 with a body that `json.Unmarshal` rejects,
`UploadFile` returns the decoding error, which is not the unknown-upload-failure
error. -/
theorem uploadFile_invalid_body_not_unknown :
    (UploadFile exClient (bytesReader [97]) "a.txt"
        (.response 500 (.invalid (.Json "invalid character")))).result
      = .error (.Json "invalid character") ∧
    (UploadFile exClient (bytesReader [97]) "a.txt"
        (.response 500 (.invalid (.Json "invalid character")))).result
      ≠ .error (.Errorf "An unknown error occured while uploading a file.") := by
  constructor
  · rfl
  · intro h
    have h2 : (UploadFile exClient (bytesReader [97]) "a.txt"
        (.response 500 (.invalid (.Json "invalid character")))).result
        = .error (.Json "invalid character") := rfl
    rw [h2] at h
    exact absurd h (by decide)

/-- C5, amended. For every upload response with a non-success status (the reader
having been read without error), `UploadFile` returns no uploaded file, and the
error is: `NotAuthroizedError` for a body with error code `forbidden`; the
`UploadError` with the same code for a body with any other error code; the
decoding error for a body that does not parse, and the read error for a body that
cannot be read; the unknown-upload-failure error for a body that parses and
carries no error object. -/
theorem uploadFile_failure_status (client : Client) (file : Reader) (name : String)
    (StatusCode : Nat) (resBody : Body UploadResponse)
    (hfile : file.fault = none) (hstatus : StatusCode ≠ StatusOK) :
    (∀ u, (UploadFile client file name (.response StatusCode resBody)).result ≠ .ok u) ∧
    (UploadFile client file name (.response StatusCode resBody)).result =
      match resBody with
      | .unreadable err => .error err
      | .invalid err => .error err
      | .parsed ⟨some code⟩ =>
        if code = "forbidden" then .error .NotAuthroizedError
        else .error (.UploadError code)
      | .parsed ⟨none⟩ =>
        .error (.Errorf "An unknown error occured while uploading a file.") := by
  have hf : file = ⟨file.pending, none⟩ := by
    cases file
    simp_all
  rw [hf]
  rcases resBody with e | e | ⟨_ | code⟩
  · exact ⟨fun u => by simp [UploadFile, GetSha1, Len, readAll, bytesReader, hstatus],
      by simp [UploadFile, GetSha1, Len, readAll, bytesReader, hstatus]⟩
  · exact ⟨fun u => by simp [UploadFile, GetSha1, Len, readAll, bytesReader, hstatus],
      by simp [UploadFile, GetSha1, Len, readAll, bytesReader, hstatus]⟩
  · exact ⟨fun u => by simp [UploadFile, GetSha1, Len, readAll, bytesReader, hstatus],
      by simp [UploadFile, GetSha1, Len, readAll, bytesReader, hstatus]⟩
  · by_cases hc : code = "forbidden"
    · exact ⟨fun u => by simp [UploadFile, GetSha1, Len, readAll, bytesReader, hstatus, hc],
        by simp [UploadFile, GetSha1, Len, readAll, bytesReader, hstatus, hc]⟩
    · exact ⟨fun u => by simp [UploadFile, GetSha1, Len, readAll, bytesReader, hstatus, hc],
        by simp [UploadFile, GetSha1, Len, readAll, bytesReader, hstatus, hc]⟩

/-- An instance of the amended C5: status 403 with error code `forbidden`. -/
theorem uploadFile_failure_status_witness :
    (bytesReader [97]).fault = none ∧ 403 ≠ StatusOK ∧
    ((∀ u, (UploadFile exClient (bytesReader [97]) "a.txt"
        (.response 403 (.parsed ⟨some "forbidden"⟩))).result ≠ .ok u) ∧
    (UploadFile exClient (bytesReader [97]) "a.txt"
        (.response 403 (.parsed ⟨some "forbidden"⟩))).result =
      match (Body.parsed ⟨some "forbidden"⟩ : Body UploadResponse) with
      | .unreadable err => .error err
      | .invalid err => .error err
      | .parsed ⟨some code⟩ =>
        if code = "forbidden" then .error .NotAuthroizedError
        else .error (.UploadError code)
      | .parsed ⟨none⟩ =>
        .error (.Errorf "An unknown error occured while uploading a file.")) :=
  ⟨rfl, by decide, uploadFile_failure_status exClient (bytesReader [97]) "a.txt" 403
    (.parsed ⟨some "forbidden"⟩) rfl (by decide)⟩

/-! ## `WaitForReady` -/

/-- The loop returns `nil` without a request once the ready state is `READY`. -/
theorem waitLoop_ready (client : Client) (exchanges : List (Exchange DeployResponse))
    (deployment : DeployResponse) (requested : List String) (polls : Nat)
    (h : deployment.ReadyState = "READY") :
    waitLoop client exchanges deployment requested polls
      = ⟨some none, deployment, requested, polls⟩ := by
  cases exchanges <;> simp [waitLoop, h]

/-- One turn of the loop on a status-200 response whose URL matches. -/
theorem waitLoop_cons_match (client : Client) (body : DeployResponse)
    (rest : List (Exchange DeployResponse)) (deployment : DeployResponse)
    (requested : List String) (polls : Nat)
    (h1 : deployment.ReadyState ≠ "READY") (h2 : deployment.ReadyState ≠ "ERROR")
    (hurl : "https://" ++ body.Url = deployment.Url) :
    waitLoop client (okPoll body :: rest) deployment requested polls
      = waitLoop client rest { deployment with ReadyState := body.ReadyState }
          (requested ++ [GetDeploymentUrl client deployment]) (polls + 1) := by
  simp [waitLoop, okPoll, h1, h2, hurl]

/-- One turn of the loop on a status-200 response whose URL does not match. -/
theorem waitLoop_cons_mismatch (client : Client) (body : DeployResponse)
    (rest : List (Exchange DeployResponse)) (deployment : DeployResponse)
    (requested : List String) (polls : Nat)
    (h1 : deployment.ReadyState ≠ "READY") (h2 : deployment.ReadyState ≠ "ERROR")
    (hurl : "https://" ++ body.Url ≠ deployment.Url) :
    waitLoop client (okPoll body :: rest) deployment requested polls
      = ⟨some (some .DeploymentUrlMismatchError), deployment,
          requested ++ [GetDeploymentUrl client deployment], polls + 1⟩ := by
  simp [waitLoop, okPoll, h1, h2, hurl]

/-- The loop over matching non-terminal responses followed by a matching `READY`
response. -/
theorem waitLoop_until_ready (client : Client) (url : String) (last : DeployResponse)
    (rest : List (Exchange DeployResponse))
    (hlast : "https://" ++ last.Url = url ∧ last.ReadyState = "READY") :
    ∀ (bodies : List DeployResponse) (deployment : DeployResponse)
      (requested : List String) (polls : Nat),
      deployment.Url = url →
      deployment.ReadyState ≠ "READY" → deployment.ReadyState ≠ "ERROR" →
      (∀ b ∈ bodies, "https://" ++ b.Url = url ∧
        b.ReadyState ≠ "READY" ∧ b.ReadyState ≠ "ERROR") →
      waitLoop client (bodies.map okPoll ++ okPoll last :: rest) deployment requested polls
        = ⟨some none, { deployment with ReadyState := last.ReadyState },
            requested ++ List.replicate (bodies.length + 1) (DeploymentName ++ url),
            polls + (bodies.length + 1)⟩ := by
  intro bodies
  induction bodies with
  | nil =>
    intro deployment requested polls hd h1 h2 _
    rw [List.map_nil, List.nil_append,
      waitLoop_cons_match client last rest deployment requested polls h1 h2
        (by rw [hlast.1, hd]),
      waitLoop_ready client rest { deployment with ReadyState := last.ReadyState } _ _
        hlast.2]
    simp [GetDeploymentUrl, hd]
  | cons b bs ih =>
    intro deployment requested polls hd h1 h2 hb
    have hb1 := hb b (List.mem_cons_self _ _)
    rw [List.map_cons, List.cons_append,
      waitLoop_cons_match client b _ deployment requested polls h1 h2
        (by rw [hb1.1, hd]),
      ih { deployment with ReadyState := b.ReadyState } _ _ hd hb1.2.1 hb1.2.2
        (fun x hx => hb x (List.mem_cons_of_mem _ hx))]
    simp only [GetDeploymentUrl, hd, List.length_cons, List.append_assoc,
      List.singleton_append, WaitReport.mk.injEq, true_and]
    refine ⟨?_, by omega⟩
    rw [← List.replicate_succ]

/-- C6, as stated, fails: after `WaitForReady` has returned `nil` on a `READY` poll, the
deployment value the caller passed still has the ready state it had before the
call; and a deployment whose ready state is `ERROR` already gets
`DeploymentReadyStateError` although the first poll would report `READY`. -/
theorem waitForReady_caller_value_unchanged :
    exDeployment.Url ≠ "" ∧
    (callWaitForReady exClient exDeployment [exPollReady]).1 = some none ∧
    (callWaitForReady exClient exDeployment [exPollReady]).2.ReadyState = "INITIALIZING" ∧
    (callWaitForReady exClient exDeployment [exPollReady]).2.ReadyState ≠ "READY" ∧
    (WaitForReady exClient { exDeployment with ReadyState := "ERROR" } [exPollReady]).returned
      = some (some .DeploymentReadyStateError) := by
  decide

/-- C6, amended. For every deployment with a non-empty `Url` and a ready state that is
not terminal yet, and every sequence of status-200, URL-matching poll responses
with non-terminal ready states followed by one whose ready state is `READY`,
`WaitForReady` returns `nil` at that poll, having issued one request per response
up to it; its own copy of the deployment then has the ready state of that last
poll, and the value the caller passed is unchanged. -/
theorem waitForReady_ready (client : Client) (d : DeployResponse)
    (bodies : List DeployResponse) (last : DeployResponse)
    (rest : List (Exchange DeployResponse))
    (hurl : d.Url ≠ "") (hstate : d.ReadyState ≠ "READY" ∧ d.ReadyState ≠ "ERROR")
    (hbodies : ∀ b ∈ bodies, "https://" ++ b.Url = d.Url ∧
      b.ReadyState ≠ "READY" ∧ b.ReadyState ≠ "ERROR")
    (hlast : "https://" ++ last.Url = d.Url ∧ last.ReadyState = "READY") :
    WaitForReady client d (bodies.map okPoll ++ okPoll last :: rest)
      = ⟨some none, { d with ReadyState := last.ReadyState },
          List.replicate (bodies.length + 1) (GetDeploymentUrl client d),
          bodies.length + 1⟩ ∧
    callWaitForReady client d (bodies.map okPoll ++ okPoll last :: rest) = (some none, d) := by
  have h := waitLoop_until_ready client d.Url last rest hlast bodies d [] 0 rfl
    hstate.1 hstate.2 hbodies
  have hw : WaitForReady client d (bodies.map okPoll ++ okPoll last :: rest)
      = ⟨some none, { d with ReadyState := last.ReadyState },
          List.replicate (bodies.length + 1) (GetDeploymentUrl client d),
          bodies.length + 1⟩ := by
    simp only [WaitForReady, if_neg hurl, h, GetDeploymentUrl]
    simp
  exact ⟨hw, by simp [callWaitForReady, hw]⟩

/-- An instance of the amended C6: one intermediate poll, then `READY`. -/
theorem waitForReady_ready_witness :
    exDeployment.Url ≠ "" ∧
    (exDeployment.ReadyState ≠ "READY" ∧ exDeployment.ReadyState ≠ "ERROR") ∧
    (WaitForReady exClient exDeployment
        ([(⟨"dpl_1", "x.now.sh", "BUILDING", none, []⟩ : DeployResponse)].map okPoll
          ++ okPoll ⟨"dpl_1", "x.now.sh", "READY", none, []⟩ :: [])
      = ⟨some none, { exDeployment with ReadyState := "READY" },
          List.replicate (1 + 1) (GetDeploymentUrl exClient exDeployment), 1 + 1⟩ ∧
    callWaitForReady exClient exDeployment
        ([(⟨"dpl_1", "x.now.sh", "BUILDING", none, []⟩ : DeployResponse)].map okPoll
          ++ okPoll ⟨"dpl_1", "x.now.sh", "READY", none, []⟩ :: [])
      = (some none, exDeployment)) :=
  ⟨by decide, by decide,
    waitForReady_ready exClient exDeployment [⟨"dpl_1", "x.now.sh", "BUILDING", none, []⟩]
      ⟨"dpl_1", "x.now.sh", "READY", none, []⟩ [] (by decide) (by decide) (by decide)
      (by decide)⟩

/-- C7. For every deployment with a non-empty `Url` and a non-terminal ready state, a
status-200 poll response with a parseable body whose `https://`-normalized url
differs from the deployment's `Url` makes `WaitForReady` return
`DeploymentUrlMismatchError` at that poll: the deployment keeps its ready state
and no later exchange is used, whatever the response's ready state is. The
second part says the same of any turn of the loop. -/
theorem waitForReady_url_mismatch (client : Client) (d body : DeployResponse)
    (rest : List (Exchange DeployResponse)) (requested : List String) (polls : Nat)
    (hurl : d.Url ≠ "") (hstate : d.ReadyState ≠ "READY" ∧ d.ReadyState ≠ "ERROR")
    (hmis : "https://" ++ body.Url ≠ d.Url) :
    WaitForReady client d (.response 200 (.parsed body) :: rest)
      = ⟨some (some .DeploymentUrlMismatchError), d, [GetDeploymentUrl client d], 1⟩ ∧
    waitLoop client (.response 200 (.parsed body) :: rest) d requested polls
      = ⟨some (some .DeploymentUrlMismatchError), d,
          requested ++ [GetDeploymentUrl client d], polls + 1⟩ := by
  have h := fun rq p =>
    waitLoop_cons_mismatch client body rest d rq p hstate.1 hstate.2 hmis
  refine ⟨?_, h requested polls⟩
  simp only [WaitForReady, if_neg hurl]
  exact h [] 0

/-- An instance of C7: the response names another host and reports `READY`. -/
theorem waitForReady_url_mismatch_witness :
    exDeployment.Url ≠ "" ∧
    (exDeployment.ReadyState ≠ "READY" ∧ exDeployment.ReadyState ≠ "ERROR") ∧
    "https://" ++ (⟨"dpl_2", "y.now.sh", "READY", none, []⟩ : DeployResponse).Url
      ≠ exDeployment.Url ∧
    (WaitForReady exClient exDeployment
        (.response 200 (.parsed ⟨"dpl_2", "y.now.sh", "READY", none, []⟩) :: [exPollReady])
      = ⟨some (some .DeploymentUrlMismatchError), exDeployment,
          [GetDeploymentUrl exClient exDeployment], 1⟩ ∧
    waitLoop exClient
        (.response 200 (.parsed ⟨"dpl_2", "y.now.sh", "READY", none, []⟩) :: [exPollReady])
        exDeployment [] 0
      = ⟨some (some .DeploymentUrlMismatchError), exDeployment,
          [] ++ [GetDeploymentUrl exClient exDeployment], 0 + 1⟩) :=
  ⟨by decide, by decide, by decide,
    waitForReady_url_mismatch exClient exDeployment ⟨"dpl_2", "y.now.sh", "READY", none, []⟩
      [exPollReady] [] 0 (by decide) (by decide) (by decide)⟩

/-- C8. The URL `GetDeploymentUrl` builds, and `WaitForReady` requests, is the constant
`DeploymentName`, `now-storage`, followed by the deployment's `Url`; for the
deployment at `https://x.now.sh` it is not the status prefix `DeploymentUrl`
followed by that `Url`. -/
theorem getDeploymentUrl_uses_deployment_name :
    (∀ (client : Client) (deployment : DeployResponse),
      GetDeploymentUrl client deployment = "now-storage" ++ deployment.Url) ∧
    GetDeploymentUrl exClient exDeployment = "now-storagehttps://x.now.sh" ∧
    DeploymentUrl ++ exDeployment.Url
      = "https://api.zeit.co/v10/now/deployments/get?url=https://x.now.sh" ∧
    GetDeploymentUrl exClient exDeployment ≠ DeploymentUrl ++ exDeployment.Url ∧
    (WaitForReady exClient exDeployment [exPollReady]).requested
      = ["now-storagehttps://x.now.sh"] := by
  refine ⟨fun _ _ => rfl, by decide, by decide, by decide, by decide⟩

/-! ## The goroutine of `UploadMany`: how many values it sends -/

/-- One attempt of the goroutine: `retryCount` goes up by one; a success appends the
uploaded file to what was sent, a failure sends nothing. -/
theorem taskAttempt_spec (client : Client) (name : String)
    (uploads : Nat → Exchange UploadResponse) (s : TaskState) :
    (taskAttempt client name uploads s).1.retryCount = s.retryCount + 1 ∧
    match (taskAttempt client name uploads s).2 with
    | none => ∃ u, (taskAttempt client name uploads s).1.c = s.c ++ [some u]
    | some _ => (taskAttempt client name uploads s).1.c = s.c := by
  simp only [taskAttempt]
  cases (UploadFile client s.file name (uploads s.retryCount)).result <;> simp

/-- With attempts left and nothing sent so far, the retry loop of the goroutine
sends exactly one value, makes at least one more attempt and stays within
`client.Retries` attempts; when the value is the `nil` sentinel all
`client.Retries` attempts were made. -/
theorem taskLoop_emits_once (client : Client) (name : String)
    (uploads : Nat → Exchange UploadResponse) :
    ∀ (k : Nat) (s : TaskState) (errorLog : List Err),
      0 < k → s.retryCount + k = client.Retries → s.c = [] →
      ((retryLoop (taskAttempt client name uploads) (taskRetryIf client) k s
          errorLog).1.c.length = 1 ∧
        s.retryCount <
          (retryLoop (taskAttempt client name uploads) (taskRetryIf client) k s
            errorLog).1.retryCount ∧
        (retryLoop (taskAttempt client name uploads) (taskRetryIf client) k s
          errorLog).1.retryCount ≤ client.Retries ∧
        ((retryLoop (taskAttempt client name uploads) (taskRetryIf client) k s
            errorLog).1.c = [none] →
          (retryLoop (taskAttempt client name uploads) (taskRetryIf client) k s
            errorLog).1.retryCount = client.Retries)) := by
  intro k
  induction k with
  | zero => intro _ _ h; exact absurd h (Nat.lt_irrefl 0)
  | succ k ih =>
    intro s errorLog _ hcount hc
    unfold retryLoop
    have hsp := taskAttempt_spec client name uploads s
    rcases hfn : taskAttempt client name uploads s with ⟨s1, _ | err⟩
    · -- the attempt succeeded
      rw [hfn] at hsp
      have h1 : s1.c.length = 1 ∧ s1.retryCount = s.retryCount + 1 ∧ s1.c ≠ [none] := by
        obtain ⟨hr, u, hu⟩ := hsp
        simp only at hr hu
        refine ⟨by simp [hu, hc], hr, ?_⟩
        rw [hu, hc]
        simp
      simp only
      refine ⟨h1.1, by omega, by omega, fun h => absurd h h1.2.2⟩
    · -- the attempt failed
      rw [hfn] at hsp
      have h1 : s1.c = [] ∧ s1.retryCount = s.retryCount + 1 := by
        obtain ⟨hr, hu⟩ := hsp
        simp only at hr hu
        exact ⟨by rw [hu, hc], hr⟩
      simp only
      by_cases hlt : s1.retryCount < client.Retries
      · have hk : 0 < k := by omega
        have hk0 : k ≠ 0 := by omega
        simp only [taskRetryIf, if_pos hlt, if_neg hk0]
        have h2 := ih s1 (errorLog ++ [err]) hk (by omega) h1.1
        exact ⟨h2.1, by omega, h2.2.2.1, h2.2.2.2⟩
      · simp only [taskRetryIf, if_neg hlt]
        refine ⟨by simp [h1.1], by omega, by omega, fun _ => by omega⟩

/-- With a budget of at least one attempt, the goroutine of one file sends exactly
one value on the channel and makes between one and `client.Retries` attempts. -/
theorem uploadTask_emits_once (client : Client) (file : FileToUpload)
    (uploads : Nat → Exchange UploadResponse) (h : 0 < client.Retries) :
    (uploadTask client file uploads).c.length = 1 ∧
      0 < (uploadTask client file uploads).retryCount ∧
      (uploadTask client file uploads).retryCount ≤ client.Retries := by
  have h1 := taskLoop_emits_once client file.Name uploads client.Retries
    ⟨file.Reader, 0, [], []⟩ [] h (by simp) rfl
  exact ⟨h1.1, h1.2.1, h1.2.2.1⟩

/-- C9. With `Retries = 0` the goroutine of a file makes no attempt and sends nothing on
the channel, whatever the uploads would answer; `UploadMany` on that one file
then waits forever on its first receive. -/
theorem uploadTask_zero_budget_sends_nothing (Token DeploymentName Team : String)
    (file : FileToUpload) (uploads : Nat → Exchange UploadResponse)
    (deploys : Nat → Exchange DeployResponse) :
    (uploadTask ⟨Token, DeploymentName, Team, 0⟩ file uploads).c = [] ∧
    (uploadTask ⟨Token, DeploymentName, Team, 0⟩ file uploads).retryCount = 0 ∧
    emitted ⟨Token, DeploymentName, Team, 0⟩ [file] (fun _ => uploads) = [[]] ∧
    (UploadMany ⟨Token, DeploymentName, Team, 0⟩ [file] [] deploys).returned = none := by
  refine ⟨rfl, rfl, rfl, rfl⟩

/-! ## `Upload`: a retry after a failed attempt -/

/-- On a fresh reader over `b` and a status-200 response, `UploadFile` sends exactly
`b` and returns the record with the given name, the hex SHA-1 of `b` and the
length of `b`; the reader it was given is left empty. -/
theorem uploadFile_success (client : Client) (b : List UInt8) (name : String)
    (resBody : Body UploadResponse) :
    (UploadFile client (bytesReader b) name (.response StatusOK resBody)).result
      = .ok ⟨name, hexEncode (sha1Sum b), b.length⟩ ∧
    ((UploadFile client (bytesReader b) name (.response StatusOK resBody)).request.map
      fun request => request.Body) = some b ∧
    (UploadFile client (bytesReader b) name (.response StatusOK resBody)).file
      = bytesReader [] := by
  simp [UploadFile, GetSha1, Len, readAll, bytesReader]

/-- C2. With two attempts, the blob `test` and a first attempt that fails in the
transport, the second attempt of `Upload` reads the reader the first one
drained: it sends an empty body, and the file handed to `CreateDeployment` has
the SHA-1 of the empty string and length 0, not the SHA-1 and length of the
blob. The goroutine of `UploadMany` sends the same record on the channel. -/
theorem upload_retry_reads_drained_reader :
    hexEncode (sha1Sum exBlob) = "a94a8fe5ccb19ba61c4c0873d391e987982fbbd3" ∧
    exBlob.length = 4 ∧
    ((uploadWithRetry exClient (bytesReader exBlob) "test.txt" exFlakyUploads).1.sent.map
      fun request => request.Body) = [exBlob, []] ∧
    (Upload exClient (bytesReader exBlob) "test.txt" exFlakyUploads exDeploys).registered
      = [[⟨"test.txt", "da39a3ee5e6b4b0d3255bfef95601890afd80709", 0⟩]] ∧
    (uploadTask exClient ⟨"test.txt", bytesReader exBlob⟩ exFlakyUploads).c
      = [some ⟨"test.txt", "da39a3ee5e6b4b0d3255bfef95601890afd80709", 0⟩] := by
  refine ⟨by rfl, by rfl, by rfl, by rfl, by rfl⟩

end Storage
